import Mathlib

/-!
Verification of the hypernum Dimensional Game Theory layer
(`src/operations/dimensional.ts`, `src/utils/dimensionUtils.ts`) and of the
demo arithmetic in `examples/warren-buffet-simulator` (`strategy.js`).

Conventions of the shallow embedding:
* JS `bigint` values are embedded as `ℤ`; `bigint` division truncates toward
  zero, which is `Int.tdiv`.
* JS `number` values appearing in the dimension-activation logic are embedded
  as `ℚ`; every constant involved (0.3, 0.4, 0.5, 1.0, 1.2, quotients by 50
  and 2000) is handled exactly here, and every comparison performed on the
  runs studied below is far from any binary-rounding boundary, so the ℚ model
  and IEEE doubles decide every branch identically.
* A thrown JS exception is embedded as `Except.error`; the error value
  records the error class.  Interpolated parts of message strings (the
  offending operand rendered into the text) are omitted: only the constant
  prefix of each message is kept.
* `NumericInput` (string | number | bigint) is fixed at its `bigint` arm;
  `toBigInt` from `src/utils/validation.ts` (not present in the sources) is
  the identity there and can never throw, and the `typeof input === 'string'`
  tests in the dimension detectors are `false`.
-/

/-- Decidable equality for `Except`, needed to state concrete run results. -/
instance {ε α : Type} [DecidableEq ε] [DecidableEq α] : DecidableEq (Except ε α)
  | Except.ok a, Except.ok b =>
      if h : a = b then isTrue (by rw [h]) else isFalse (fun hc => h (Except.ok.inj hc))
  | Except.ok _, Except.error _ => isFalse (fun hc => Except.noConfusion hc)
  | Except.error _, Except.ok _ => isFalse (fun hc => Except.noConfusion hc)
  | Except.error a, Except.error b =>
      if h : a = b then isTrue (by rw [h]) else isFalse (fun hc => h (Except.error.inj hc))

/-- Fueled decimal-digit counter: `digitLenAux fuel n` is the number of
decimal digits of `n` provided `fuel` bounds the recursion depth. -/
def digitLenAux : ℕ → ℕ → ℕ
  | 0, _ => 1
  | fuel + 1, n => if n < 10 then 1 else digitLenAux fuel (n / 10) + 1

/-- Length of the decimal representation of a natural number, i.e. of the JS
string `n.toString()` for `n ≥ 0`.  `digitLen 0 = 1` (the string "0"). -/
def digitLen (n : ℕ) : ℕ := digitLenAux n n

/-- Length of the JS string `x.toString()` for a `bigint` `x`: a leading
minus sign counts one character. -/
def intToStringLen (x : ℤ) : ℕ := (if x < 0 then 1 else 0) + digitLen x.natAbs

/-- Fueled binary-digit counter, used by the modelled overflow guard. -/
def bitLenAux : ℕ → ℕ → ℕ
  | 0, _ => 1
  | fuel + 1, n => if n < 2 then 1 else bitLenAux fuel (n / 2) + 1

/-- Number of binary digits of a natural number (`bitLen 0 = 1`). -/
def bitLen (n : ℕ) : ℕ := bitLenAux n n

/-! ### Error classes (src/errors + native JS errors) -/

/-- Error classes observable from the embedded operations.  The first three
are the library's own error hierarchy; `rangeErrorNative` is the native JS
`RangeError` raised by `bigint` division by zero; `loopFuelExhausted` is an
artifact of the fueled embedding of `while` loops and is proved unreachable
on the domains considered. -/
inductive JsError : Type
  | validationError (msg : String)
  | overflowError (msg : String)
  | computationLimitError (msg : String)
  | rangeErrorNative (msg : String)
  | loopFuelExhausted
deriving DecidableEq

/-! ### Binomial computations (src/operations/dimensional.ts, lines 313-344) -/

/-- Loop body of `computeIterativeBinomial`:
`for (let i = 1n; i <= k; i++) result = result * (n - i + 1n) / i`.
`fuel` is the number of remaining iterations and `i` the current counter. -/
def binomialLoop (n : ℤ) : ℕ → ℤ → ℤ → ℤ
  | 0, _, result => result
  | fuel + 1, i, result => binomialLoop n fuel (i + 1) (Int.tdiv (result * (n - i + 1)) i)

/-- `computeIterativeBinomial(n, k)` from `dimensional.ts`:
guards `k > n → 0`, `k = 0 ∨ k = n → 1`, symmetry reduction
`k := k > n - k ? n - k : k`, then the multiplicative loop.  When the reduced
`k` is negative the JS loop body never runs (`i = 1 ≤ k` fails), which
`Int.toNat` reproduces.  The function is total: no operation in it throws. -/
def computeIterativeBinomial (n k : ℤ) : ℤ :=
  if n < k then 0
  else if k = 0 ∨ k = n then 1
  else
    let k2 := if n - k < k then n - k else k
    binomialLoop n k2.toNat 1 1

/-- Companion predicate to `binomialLoop` recording that every `bigint`
division performed by the loop has zero remainder. -/
def binomialLoopDvd (n : ℤ) : ℕ → ℤ → ℤ → Prop
  | 0, _, _ => True
  | fuel + 1, i, result =>
      i ∣ result * (n - i + 1) ∧
      binomialLoopDvd n fuel (i + 1) (Int.tdiv (result * (n - i + 1)) i)

/-- Every division performed during `computeIterativeBinomial n k` is exact. -/
def computeIterativeBinomialDvd (n k : ℤ) : Prop :=
  if n < k then True
  else if k = 0 ∨ k = n then True
  else
    let k2 := if n - k < k then n - k else k
    binomialLoopDvd n k2.toNat 1 1

/-- Configuration record as read by the dimensional layer
(`config as any` in `dimensional.ts`): only `precision`, `maxSteps`, `debug`,
`checkOverflow` and `maxBits` are consulted.  `Option` models an absent
(`undefined`) field. -/
structure HypernumConfig : Type where
  precision : Option ℤ := none
  maxSteps : Option ℤ := none
  debug : Bool := false
  checkOverflow : Bool := true
  maxBits : Option ℤ := none
deriving DecidableEq

/-- Loop body of `computeStagedBinomial`:
`for (let i = 0n; i < actualK; i++) { result = result * currentN / (i + 1n); currentN--; }`. -/
def stagedLoop : ℕ → ℤ → ℤ → ℤ → ℤ
  | 0, _, result, _ => result
  | fuel + 1, i, result, currentN =>
      stagedLoop fuel (i + 1) (Int.tdiv (result * currentN) (i + 1)) (currentN - 1)

/-- `computeStagedBinomial(n, k, config)` from `dimensional.ts`: symmetry
reduction then the staged loop.  The configuration argument is received but
never consulted. -/
def computeStagedBinomial (n k : ℤ) (_config : HypernumConfig) : ℤ :=
  let actualK := if n - k < k then n - k else k
  stagedLoop actualK.toNat 0 1 n

/-! ### Invariants of the binomial loops -/

/-- Invariant of the iterative binomial loop: starting iteration `j + 1` with
accumulator `C(n, j)`, the loop returns `C(n, j + fuel)` and every division
it performs is exact. -/
lemma binomialLoop_invariant (n : ℕ) :
    ∀ (fuel j : ℕ), j + fuel ≤ n →
      binomialLoop (n : ℤ) fuel ((j : ℤ) + 1) ((n.choose j : ℕ) : ℤ)
          = ((n.choose (j + fuel) : ℕ) : ℤ)
        ∧ binomialLoopDvd (n : ℤ) fuel ((j : ℤ) + 1) ((n.choose j : ℕ) : ℤ) := by
  intro fuel
  induction fuel with
  | zero => intro j _; exact ⟨rfl, trivial⟩
  | succ f ih =>
    intro j hj
    have hjn : j + 1 ≤ n := by omega
    have hmul : ((n.choose j : ℕ) : ℤ) * ((n : ℤ) - ((j : ℤ) + 1) + 1)
        = ((n.choose (j + 1) * (j + 1) : ℕ) : ℤ) := by
      have hsub : ((n : ℤ) - ((j : ℤ) + 1) + 1) = ((n - j : ℕ) : ℤ) := by omega
      rw [hsub, ← Nat.cast_mul, Nat.choose_succ_right_eq]
    have hdiv : Int.tdiv (((n.choose j : ℕ) : ℤ) * ((n : ℤ) - ((j : ℤ) + 1) + 1)) ((j : ℤ) + 1)
        = ((n.choose (j + 1) : ℕ) : ℤ) := by
      rw [hmul]
      have hcast : ((j : ℤ) + 1) = ((j + 1 : ℕ) : ℤ) := by push_cast; ring
      rw [hcast, ← Int.ofNat_tdiv, Nat.mul_div_cancel _ (Nat.succ_pos j)]
    have hdvd : ((j : ℤ) + 1) ∣ ((n.choose j : ℕ) : ℤ) * ((n : ℤ) - ((j : ℤ) + 1) + 1) := by
      rw [hmul]
      exact ⟨(n.choose (j + 1) : ℤ), by push_cast; ring⟩
    have hstep := ih (j + 1) (by omega)
    have hcast2 : ((j : ℤ) + 1) + 1 = (((j + 1 : ℕ) : ℤ)) + 1 := by push_cast; ring
    constructor
    · show binomialLoop (n : ℤ) f (((j : ℤ) + 1) + 1)
          (Int.tdiv (((n.choose j : ℕ) : ℤ) * ((n : ℤ) - ((j : ℤ) + 1) + 1)) ((j : ℤ) + 1))
          = ((n.choose (j + (f + 1)) : ℕ) : ℤ)
      rw [hdiv, hcast2, (by omega : j + (f + 1) = (j + 1) + f)]
      exact hstep.1
    · refine ⟨hdvd, ?_⟩
      show binomialLoopDvd (n : ℤ) f (((j : ℤ) + 1) + 1)
          (Int.tdiv (((n.choose j : ℕ) : ℤ) * ((n : ℤ) - ((j : ℤ) + 1) + 1)) ((j : ℤ) + 1))
      rw [hdiv, hcast2]
      exact hstep.2

/-- `computeIterativeBinomial` computes the binomial coefficient on the
domain `0 ≤ k ≤ n`. -/
lemma computeIterativeBinomial_eq_choose (n k : ℤ) (hk : 0 ≤ k) (hkn : k ≤ n) :
    computeIterativeBinomial n k = ((n.toNat.choose k.toNat : ℕ) : ℤ) := by
  have hn : 0 ≤ n := le_trans hk hkn
  have hK : (k.toNat : ℤ) = k := Int.toNat_of_nonneg hk
  have hN : (n.toNat : ℤ) = n := Int.toNat_of_nonneg hn
  have hKN : k.toNat ≤ n.toNat := by omega
  unfold computeIterativeBinomial
  rw [if_neg (by omega)]
  by_cases h0 : k = 0 ∨ k = n
  · rw [if_pos h0]
    rcases h0 with h0 | h0
    · subst h0; simp
    · subst h0; simp [Nat.choose_self]
  · rw [if_neg h0]
    push_neg at h0
    by_cases hsym : n - k < k
    · rw [if_pos hsym]
      show binomialLoop n (n - k).toNat 1 1 = ((n.toNat.choose k.toNat : ℕ) : ℤ)
      have htoNat : (n - k).toNat = n.toNat - k.toNat := by omega
      have hle : 0 + (n.toNat - k.toNat) ≤ n.toNat := by omega
      have hinv := (binomialLoop_invariant n.toNat (n.toNat - k.toNat) 0 hle).1
      simp only [Nat.choose_zero_right, Nat.cast_one, Nat.cast_zero, zero_add] at hinv
      rw [hN] at hinv
      rw [htoNat, hinv, Nat.choose_symm hKN]
    · rw [if_neg hsym]
      show binomialLoop n k.toNat 1 1 = ((n.toNat.choose k.toNat : ℕ) : ℤ)
      have hle : 0 + k.toNat ≤ n.toNat := by omega
      have hinv := (binomialLoop_invariant n.toNat k.toNat 0 hle).1
      simp only [Nat.choose_zero_right, Nat.cast_one, Nat.cast_zero, zero_add] at hinv
      rw [hN] at hinv
      rw [hinv]

/-- On the domain `0 ≤ k ≤ n` every division inside
`computeIterativeBinomial` is exact. -/
lemma computeIterativeBinomial_dvd (n k : ℤ) (hk : 0 ≤ k) (hkn : k ≤ n) :
    computeIterativeBinomialDvd n k := by
  have hn : 0 ≤ n := le_trans hk hkn
  have hN : (n.toNat : ℤ) = n := Int.toNat_of_nonneg hn
  unfold computeIterativeBinomialDvd
  rw [if_neg (by omega)]
  by_cases h0 : k = 0 ∨ k = n
  · rw [if_pos h0]; trivial
  · rw [if_neg h0]
    push_neg at h0
    by_cases hsym : n - k < k
    · rw [if_pos hsym]
      show binomialLoopDvd n (n - k).toNat 1 1
      have htoNat : (n - k).toNat = n.toNat - k.toNat := by omega
      have hle0 : 0 + (n.toNat - k.toNat) ≤ n.toNat := by omega
      have hinv := (binomialLoop_invariant n.toNat (n.toNat - k.toNat) 0 hle0).2
      simp only [Nat.choose_zero_right, Nat.cast_one, Nat.cast_zero, zero_add] at hinv
      rw [hN] at hinv
      rw [htoNat]
      exact hinv
    · rw [if_neg hsym]
      show binomialLoopDvd n k.toNat 1 1
      have hle1 : 0 + k.toNat ≤ n.toNat := by omega
      have hinv := (binomialLoop_invariant n.toNat k.toNat 0 hle1).2
      simp only [Nat.choose_zero_right, Nat.cast_one, Nat.cast_zero, zero_add] at hinv
      rw [hN] at hinv
      exact hinv

/-- Invariant of the staged binomial loop: entering iteration `j` with
accumulator `C(n, j)` and `currentN = n - j`, the loop returns `C(n, j + fuel)`. -/
lemma stagedLoop_invariant (n : ℕ) :
    ∀ (fuel j : ℕ), j + fuel ≤ n →
      stagedLoop fuel (j : ℤ) ((n.choose j : ℕ) : ℤ) ((n : ℤ) - j)
        = ((n.choose (j + fuel) : ℕ) : ℤ) := by
  intro fuel
  induction fuel with
  | zero => intro j _; rfl
  | succ f ih =>
    intro j hj
    have hmul : ((n.choose j : ℕ) : ℤ) * ((n : ℤ) - (j : ℤ))
        = ((n.choose (j + 1) * (j + 1) : ℕ) : ℤ) := by
      have hsub : ((n : ℤ) - (j : ℤ)) = ((n - j : ℕ) : ℤ) := by omega
      rw [hsub, ← Nat.cast_mul, Nat.choose_succ_right_eq]
    have hdiv : Int.tdiv (((n.choose j : ℕ) : ℤ) * ((n : ℤ) - (j : ℤ))) ((j : ℤ) + 1)
        = ((n.choose (j + 1) : ℕ) : ℤ) := by
      rw [hmul]
      have hcast : ((j : ℤ) + 1) = ((j + 1 : ℕ) : ℤ) := by push_cast; ring
      rw [hcast, ← Int.ofNat_tdiv, Nat.mul_div_cancel _ (Nat.succ_pos j)]
    have hstep := ih (j + 1) (by omega)
    show stagedLoop f ((j : ℤ) + 1)
        (Int.tdiv (((n.choose j : ℕ) : ℤ) * ((n : ℤ) - (j : ℤ))) ((j : ℤ) + 1))
        (((n : ℤ) - (j : ℤ)) - 1) = ((n.choose (j + (f + 1)) : ℕ) : ℤ)
    rw [hdiv, (by omega : j + (f + 1) = (j + 1) + f)]
    have hcast3 : ((j : ℤ) + 1) = (((j + 1 : ℕ) : ℤ)) := by push_cast; ring
    have hcast4 : ((n : ℤ) - (j : ℤ)) - 1 = (n : ℤ) - ((j + 1 : ℕ) : ℤ) := by push_cast; ring
    rw [hcast3, hcast4]
    exact hstep

/-- `computeStagedBinomial` also computes the binomial coefficient on
`0 ≤ k ≤ n`, for every configuration. -/
lemma computeStagedBinomial_eq_choose (n k : ℤ) (cfg : HypernumConfig)
    (hk : 0 ≤ k) (hkn : k ≤ n) :
    computeStagedBinomial n k cfg = ((n.toNat.choose k.toNat : ℕ) : ℤ) := by
  have hn : 0 ≤ n := le_trans hk hkn
  have hN : (n.toNat : ℤ) = n := Int.toNat_of_nonneg hn
  have hKN : k.toNat ≤ n.toNat := by omega
  unfold computeStagedBinomial
  by_cases hsym : n - k < k
  · rw [if_pos hsym]
    show stagedLoop (n - k).toNat 0 1 n = ((n.toNat.choose k.toNat : ℕ) : ℤ)
    have htoNat : (n - k).toNat = n.toNat - k.toNat := by omega
    have hle : 0 + (n.toNat - k.toNat) ≤ n.toNat := by omega
    have hinv := stagedLoop_invariant n.toNat (n.toNat - k.toNat) 0 hle
    simp only [Nat.choose_zero_right, Nat.cast_one, Nat.cast_zero, zero_add, sub_zero] at hinv
    rw [hN] at hinv
    rw [htoNat, hinv, Nat.choose_symm hKN]
  · rw [if_neg hsym]
    show stagedLoop k.toNat 0 1 n = ((n.toNat.choose k.toNat : ℕ) : ℤ)
    have hle : 0 + k.toNat ≤ n.toNat := by omega
    have hinv := stagedLoop_invariant n.toNat k.toNat 0 hle
    simp only [Nat.choose_zero_right, Nat.cast_one, Nat.cast_zero, zero_add, sub_zero] at hinv
    rw [hN] at hinv
    rw [hinv]

/-! ### Strategy dimensions and profiles (src/operations/dimensional.ts) -/

/-- The `StrategyDimension` enum of `operations/dimensional.ts`. -/
inductive StrategyDimension : Type
  | growthRisk
  | precisionTension
  | recursionDepth
  | heuristicFit
  | memoryPressure
  | userIntent
deriving DecidableEq

/-- The `DimensionProfile` interface of `operations/dimensional.ts`.
`activation` and `threshold` are JS numbers, embedded as `ℚ`. -/
structure DimensionProfile : Type where
  dimension : StrategyDimension
  activation : ℚ
  threshold : ℚ
  evidence : List String
deriving DecidableEq

/-- The `primary` field of a `StrategyProfile`. -/
inductive StrategyPrimary : Type
  | exact
  | heuristic
  | staged
  | memorySafe
deriving DecidableEq

/-- The `StrategyProfile` record returned by `resolveStrategy`. -/
structure StrategyProfile : Type where
  primary : StrategyPrimary
  fallbacks : List String
  expectedPrecision : ℚ
  estimatedComplexity : String
  reasoning : String

/-- `isPromotableScalar(input)` for a `bigint` input: `toBigInt` is the
identity (never throws), and the scientific-notation test
`typeof input === 'string' && input.includes('e')` is `false`. -/
def isPromotableScalar (x : ℤ) : Bool :=
  let magnitude := if x < 0 then -x else x
  decide (1000 < magnitude) || decide (10 < digitLen magnitude.toNat)

/-- The `DimensionProfile` literal built by `promoteToDimension` once the
input passed `isPromotableScalar` (activation contributions 0.3 for
magnitude above `base_size` and 0.4 for more than 50 digits; the
scientific-notation contribution is never added for a `bigint` input). -/
def promotedGrowthProfile (x : ℤ) : DimensionProfile :=
  let magnitude := if x < 0 then -x else x
  let a1 : ℚ := if 1000 < magnitude then 3/10 else 0
  let ev1 : List String := if 1000 < magnitude then ["Large magnitude: "] else []
  let a2 : ℚ := if 50 < digitLen magnitude.toNat then 4/10 else 0
  let ev2 : List String := if 50 < digitLen magnitude.toNat then ["Extremely large number: "] else []
  { dimension := StrategyDimension.growthRisk
    activation := min (a1 + a2) 1
    threshold := 1/2
    evidence := ev1 ++ ev2 }

/-- `promoteToDimension(input)` for a `bigint` input. -/
def promoteToDimension (x : ℤ) : Option DimensionProfile :=
  if ¬ isPromotableScalar x then none else some (promotedGrowthProfile x)

/-- Profile pushed by `detectDimensions` when `config.precision > 10`. -/
def precisionProfile (p : ℤ) : DimensionProfile :=
  { dimension := StrategyDimension.precisionTension
    activation := min ((p : ℚ) / 50) 1
    threshold := 3/10
    evidence := ["High precision required: "] }

/-- Profile pushed by `detectDimensions` when `config.maxSteps > 500`. -/
def recursionProfile (m : ℤ) : DimensionProfile :=
  { dimension := StrategyDimension.recursionDepth
    activation := min ((m : ℚ) / 2000) 1
    threshold := 2/5
    evidence := ["High step limit: "] }

/-- Profile pushed by `detectDimensions` when `config.debug` is set. -/
def userIntentProfile : DimensionProfile :=
  { dimension := StrategyDimension.userIntent
    activation := 1
    threshold := 1/2
    evidence := ["Debug mode indicates development/testing context"] }

/-- `detectDimensions(inputs, config)`: input-driven growth-risk profiles
(pushed only when activation reaches the threshold), then the
configuration-driven profiles.  The JS truthiness guards
`basicConfig.precision &&`, `basicConfig.maxSteps &&` are subsumed by the
strict `> 10` / `> 500` comparisons. -/
def detectDimensions (inputs : List ℤ) (config : HypernumConfig) : List DimensionProfile :=
  (inputs.filterMap fun input =>
    match promoteToDimension input with
    | some profile => if profile.threshold ≤ profile.activation then some profile else none
    | none => none)
  ++ (match config.precision with
      | some p => if 10 < p then [precisionProfile p] else []
      | none => [])
  ++ (match config.maxSteps with
      | some m => if 500 < m then [recursionProfile m] else []
      | none => [])
  ++ (if config.debug then [userIntentProfile] else [])

/-- `resolveStrategy(inputs, config)` from `operations/dimensional.ts`. -/
def resolveStrategy (inputs : List ℤ) (config : HypernumConfig) : StrategyProfile :=
  let profiles := detectDimensions inputs config
  let activeDimensions :=
    (profiles.filter fun p => decide (p.threshold ≤ p.activation)).map (·.dimension)
  if StrategyDimension.growthRisk ∈ activeDimensions then
    if StrategyDimension.heuristicFit ∈ activeDimensions then
      { primary := StrategyPrimary.heuristic
        fallbacks := ["staged", "exact"]
        expectedPrecision := 95/100
        estimatedComplexity := "medium"
        reasoning := "Growth risk detected, heuristics acceptable" }
    else
      { primary := StrategyPrimary.staged
        fallbacks := ["memory-safe", "heuristic"]
        expectedPrecision := 99/100
        estimatedComplexity := "high"
        reasoning := "Growth risk requires careful staged computation" }
  else if StrategyDimension.precisionTension ∈ activeDimensions then
    { primary := StrategyPrimary.exact
      fallbacks := ["staged"]
      expectedPrecision := 1
      estimatedComplexity := "high"
      reasoning := "High precision required, no approximations" }
  else if StrategyDimension.recursionDepth ∈ activeDimensions then
    { primary := StrategyPrimary.memorySafe
      fallbacks := ["heuristic", "staged"]
      expectedPrecision := 98/100
      estimatedComplexity := "medium"
      reasoning := "Recursion depth limits require iterative approach" }
  else
    { primary := StrategyPrimary.exact
      fallbacks := ["staged"]
      expectedPrecision := 1
      estimatedComplexity := "low"
      reasoning := "No special dimensions detected, using exact computation" }

/-! ### Power operations (src/operations/dimensional.ts, lines 349-424) -/

/-- Modelled from the spec: `src/operations/power.ts` exports
`power(base, exponent, config)`, which is not present under the sources
(only its caller `operations/dimensional.ts` is).  Per the spec it is binary
square-and-multiply integer exponentiation: a negative exponent fails with a
ValidationError; when `overflowChecking` is false all checks are skipped and
the exact mathematical result `base ^ exponent` is always returned
regardless of size; when it is true the overflow guard fails with an
OverflowError as soon as the computation exceeds the configured `maxBits`
bit bound (observably: exactly when the result does, since the guarded
intermediates are bounded by the result).  An absent `maxBits` disables the
bit-bound test. -/
def power.power (base exponent : ℤ) (config : HypernumConfig) : Except JsError ℤ :=
  if exponent < 0 then
    Except.error (JsError.validationError "Negative exponent not supported in integer power")
  else
    let result := base ^ exponent.toNat
    if config.checkOverflow then
      match config.maxBits with
      | some mb =>
          if mb < (bitLen result.natAbs : ℤ) then
            Except.error (JsError.overflowError "Power result exceeds maxBits bound")
          else Except.ok result
      | none => Except.ok result
    else Except.ok result

/-- The `maxSteps` default of `computeStagedPower`:
`basicConfig.maxSteps || 1000` (JS `||`: an absent or zero field falls back
to 1000). -/
def stagedMaxSteps (config : HypernumConfig) : ℤ :=
  match config.maxSteps with
  | some m => if m = 0 then 1000 else m
  | none => 1000

/-- `computeStagedPower(base, exponent, config)` from `dimensional.ts`:
throws a ValidationError when `exponent > maxSteps`, otherwise delegates to
`power.power` with `maxSteps` spread into the configuration. -/
def computeStagedPower (base exponent : ℤ) (config : HypernumConfig) : Except JsError ℤ :=
  let maxSteps := stagedMaxSteps config
  if maxSteps < exponent then
    Except.error (JsError.validationError "Exponent too large for staged computation")
  else power.power base exponent { config with maxSteps := some maxSteps }

/-- The inner chunk loop of `computeIterativePower`:
`for (let i = 0n; i < chunk; i++) chunkResult *= currentBase`. -/
def repeatMul (b : ℤ) : ℕ → ℤ
  | 0 => 1
  | n + 1 => repeatMul b n * b

/-- The `while (remaining > 0n)` loop of `computeIterativePower`.  The JS
loop is unbounded; `fuel` bounds the embedding and is sufficient whenever
`chunkSize ≥ 1` and `fuel ≥ remaining` (each round consumes at least one
unit of `remaining`), which is proved below; the `loopFuelExhausted` arm is
unreachable there. -/
def iterPowerLoop (base chunkSize : ℤ) : ℕ → ℤ → ℤ → Except JsError ℤ
  | 0, result, remaining =>
      if 0 < remaining then Except.error JsError.loopFuelExhausted else Except.ok result
  | fuel + 1, result, remaining =>
      if 0 < remaining then
        let chunk := if chunkSize < remaining then chunkSize else remaining
        let chunkResult := repeatMul base chunk.toNat
        let result2 := result * chunkResult
        let remaining2 := remaining - chunk
        if 1000 < intToStringLen result2 then
          Except.error (JsError.validationError "Power computation exceeds memory limits")
        else iterPowerLoop base chunkSize fuel result2 remaining2
      else Except.ok result

/-- `computeIterativePower(base, exponent, chunkSize)` from
`dimensional.ts`: special cases for exponents 0 and 1, then the chunked
accumulation loop with its 1000-character cap on
`result.toString().length`.  A negative exponent skips the loop entirely
(`remaining > 0n` is false) and returns the initial accumulator 1. -/
def computeIterativePower (base exponent chunkSize : ℤ) : Except JsError ℤ :=
  if exponent = 0 then Except.ok 1
  else if exponent = 1 then Except.ok base
  else iterPowerLoop base chunkSize exponent.toNat 1 exponent

/-- Result type of `computeSmartPower` (`bigint | number`). `numberVal`
stands for the logarithmic `number` approximation of the heuristic branch;
its floating-point payload is not modelled because the branch is proved
unreachable (`resolveStrategy_primary_ne_heuristic`). -/
inductive NumericResult : Type
  | bigintVal (v : ℤ)
  | numberVal
deriving DecidableEq

/-- `computeSmartPower(base, exponent, config)` from `dimensional.ts`, at
`bigint` inputs: extreme-growth check (`base > 10 && exponent > 100`) and
strategy dispatch.  The `debug` console log has no observable effect and is
omitted. -/
def computeSmartPower (base exponent : ℤ) (config : HypernumConfig) :
    Except JsError NumericResult :=
  let strategy := resolveStrategy [base, exponent] config
  if 10 < base ∧ 100 < exponent then
    if strategy.primary = StrategyPrimary.heuristic then Except.ok NumericResult.numberVal
    else Except.error (JsError.validationError "Power computation would exceed safe bounds")
  else
    match strategy.primary with
    | StrategyPrimary.staged =>
        (computeStagedPower base exponent config).map NumericResult.bigintVal
    | StrategyPrimary.memorySafe =>
        (computeIterativePower base exponent 1000).map NumericResult.bigintVal
    | _ => (power.power base exponent config).map NumericResult.bigintVal

/-! ### Dimension conflict resolution (src/utils/dimensionUtils.ts, lines 322-389) -/

/-- `checkDimensionConflicts(profiles)` from `dimensionUtils.ts`. -/
def checkDimensionConflicts (profiles : List DimensionProfile) : List String :=
  let activeDimensions := profiles.map (·.dimension)
  (if StrategyDimension.precisionTension ∈ activeDimensions ∧
      StrategyDimension.heuristicFit ∈ activeDimensions then
    ["Precision requirements conflict with heuristic approximations"]
   else [])
  ++ (if StrategyDimension.growthRisk ∈ activeDimensions ∧
         StrategyDimension.recursionDepth ∈ activeDimensions then
       ["Growth risk combined with recursion depth may cause overflow"]
      else [])

/-- In-place update `profiles[i].activation = f(profiles[i].activation)`. -/
def updateActivationAt (l : List DimensionProfile) (i : ℕ) (f : ℚ → ℚ) :
    List DimensionProfile :=
  match l.get? i with
  | some p => l.set i { p with activation := f p.activation }
  | none => l

/-- `resolveDimensionConflicts(profiles)` from `dimensionUtils.ts`.  The JS
code copies the array (`[...profiles]`) but the copy shares the profile
objects, so the assignments `adjustedProfiles[i].activation *= 0.5` and
`... = Math.min(... * 1.2, 1.0)` mutate the caller's objects; the returned
list is the observable value of both arrays after the call. -/
def resolveDimensionConflicts (profiles : List DimensionProfile) :
    String × List DimensionProfile :=
  let conflicts := checkDimensionConflicts profiles
  if conflicts = [] then ("No conflicts detected", profiles)
  else
    let precisionIndex :=
      profiles.findIdx? fun p => p.dimension == StrategyDimension.precisionTension
    let heuristicIndex :=
      profiles.findIdx? fun p => p.dimension == StrategyDimension.heuristicFit
    let afterHeuristic :=
      match precisionIndex, heuristicIndex with
      | some _, some hi => updateActivationAt profiles hi (fun a => a * (1/2))
      | _, _ => profiles
    let resolution1 :=
      "Conflicts resolved by: " ++
        (match precisionIndex, heuristicIndex with
         | some _, some _ => "reducing heuristic priority for precision; "
         | _, _ => "")
    let memoryIndex :=
      afterHeuristic.findIdx? fun p => p.dimension == StrategyDimension.memoryPressure
    let recursionIndex :=
      afterHeuristic.findIdx? fun p => p.dimension == StrategyDimension.recursionDepth
    let afterMemory :=
      match memoryIndex, recursionIndex with
      | some mi, some _ => updateActivationAt afterHeuristic mi (fun a => min (a * (12/10)) 1)
      | _, _ => afterHeuristic
    let resolution2 :=
      resolution1 ++
        (match memoryIndex, recursionIndex with
         | some _, some _ => "prioritizing memory safety over recursion optimization"
         | _, _ => "")
    (resolution2, afterMemory)

/-- Observable state of the caller's `profiles` array after
`resolveDimensionConflicts` returns: because `[...profiles]` shares the
profile objects, the caller's array holds exactly the adjusted profiles. -/
def resolveDimensionConflictsCallerAfter (profiles : List DimensionProfile) :
    List DimensionProfile :=
  (resolveDimensionConflicts profiles).2

/-! ### Demo division (examples/warren-buffet-simulator strategy.js) -/

/-- `MockHypernum.divide(a, b)` from `strategy.js`:
`(BigInt(a) * 1000n) / BigInt(b)`.  Native `bigint` division by zero throws
a JS `RangeError`, embedded as `rangeErrorNative`. -/
def MockHypernum.divide (a b : ℤ) : Except JsError ℤ :=
  if b = 0 then Except.error (JsError.rangeErrorNative "Division by zero")
  else Except.ok (Int.tdiv (a * 1000) b)

/-- The `divide` of the `fallbackToBasicMode` object in `strategy.js`:
`(a, b) => BigInt(a) / BigInt(b)`, again native division. -/
def fallbackDivide (a b : ℤ) : Except JsError ℤ :=
  if b = 0 then Except.error (JsError.rangeErrorNative "Division by zero")
  else Except.ok (Int.tdiv a b)

/-- Modelled from the spec: the arithmetic kernel's division
(`src/operations/arithmetic.ts`, not present under the sources).  Per spec
§4.4, division fails with a ValidationError (DivisionByZero) when the
divisor normalizes to zero. -/
def arithmetic.divide (a b : ℤ) : Except JsError ℤ :=
  if b = 0 then Except.error (JsError.validationError "Division by zero is not allowed")
  else Except.ok (Int.tdiv a b)

/-! ### Lemmas about the power layer -/

/-- The inner chunk loop computes a power. -/
lemma repeatMul_eq_pow (b : ℤ) (n : ℕ) : repeatMul b n = b ^ n := by
  induction n with
  | zero => rfl
  | succ n ih => rw [repeatMul, ih, pow_succ]

/-- One-round unfolding of the chunked power loop. -/
lemma iterPowerLoop_succ (base chunkSize : ℤ) (f : ℕ) (result remaining : ℤ)
    (h : 0 < remaining) :
    iterPowerLoop base chunkSize (f + 1) result remaining =
      (let chunk := if chunkSize < remaining then chunkSize else remaining
       let result2 := result * repeatMul base chunk.toNat
       if 1000 < intToStringLen result2 then
         Except.error (JsError.validationError "Power computation exceeds memory limits")
       else iterPowerLoop base chunkSize f result2 (remaining - chunk)) := by
  simp only [iterPowerLoop, if_pos h]

/-- Main invariant of the chunked power loop: starting with accumulator
`base ^ a` and `remaining ≥ 0` left to consume (with enough fuel), the loop
either returns `base ^ (a + remaining)` or stops with the memory-limit
ValidationError at a round whose accumulated value `base ^ m` has a decimal
string longer than 1000 characters. -/
lemma iterPowerLoop_spec (base chunkSize : ℤ) (hc : 0 < chunkSize) :
    ∀ (fuel a : ℕ) (remaining : ℤ), 0 ≤ remaining → remaining.toNat ≤ fuel →
      iterPowerLoop base chunkSize fuel (base ^ a) remaining
          = Except.ok (base ^ (a + remaining.toNat))
        ∨ ∃ m : ℕ, a < m ∧ m ≤ a + remaining.toNat ∧
            1000 < intToStringLen (base ^ m) ∧
            iterPowerLoop base chunkSize fuel (base ^ a) remaining
              = Except.error (JsError.validationError "Power computation exceeds memory limits") := by
  intro fuel
  induction fuel with
  | zero =>
    intro a remaining h0 hle
    have hz : remaining = 0 := by omega
    subst hz
    left
    simp [iterPowerLoop]
  | succ f ih =>
    intro a remaining h0 hle
    by_cases hrem : 0 < remaining
    · have hunf := iterPowerLoop_succ base chunkSize f (base ^ a) remaining hrem
      simp only [] at hunf
      set chunk := if chunkSize < remaining then chunkSize else remaining with hchunk
      have hch1 : 1 ≤ chunk := by rw [hchunk]; split <;> omega
      have hchle : chunk ≤ remaining := by rw [hchunk]; split <;> omega
      have hresult2 : base ^ a * repeatMul base chunk.toNat = base ^ (a + chunk.toNat) := by
        rw [repeatMul_eq_pow, pow_add]
      rw [hresult2] at hunf
      by_cases hlen : 1000 < intToStringLen (base ^ (a + chunk.toNat))
      · right
        refine ⟨a + chunk.toNat, by omega, by omega, hlen, ?_⟩
        rw [hunf, if_pos hlen]
      · have h0' : (0 : ℤ) ≤ remaining - chunk := by omega
        have hle' : (remaining - chunk).toNat ≤ f := by omega
        have hrec := ih (a + chunk.toNat) (remaining - chunk) h0' hle'
        have hexp : a + chunk.toNat + (remaining - chunk).toNat = a + remaining.toNat := by
          omega
        rw [hexp] at hrec
        rw [hunf, if_neg hlen]
        rcases hrec with hok | ⟨m, hm1, hm2, hm3, herr⟩
        · left; exact hok
        · right; exact ⟨m, by omega, by omega, hm3, herr⟩
    · have hz : remaining = 0 := by omega
      subst hz
      left
      simp [iterPowerLoop]

/-- If `computeIterativePower` returns a value, that value is exactly
`base ^ exponent`. -/
lemma computeIterativePower_ok (base exponent chunkSize : ℤ)
    (he : 0 ≤ exponent) (hc : 0 < chunkSize) (v : ℤ)
    (h : computeIterativePower base exponent chunkSize = Except.ok v) :
    v = base ^ exponent.toNat := by
  unfold computeIterativePower at h
  by_cases h0 : exponent = 0
  · rw [if_pos h0] at h
    subst h0
    simpa using (Except.ok.inj h).symm
  · rw [if_neg h0] at h
    by_cases h1 : exponent = 1
    · rw [if_pos h1] at h
      subst h1
      simpa using (Except.ok.inj h).symm
    · rw [if_neg h1] at h
      have hspec := iterPowerLoop_spec base chunkSize hc exponent.toNat 0 exponent he le_rfl
      rw [pow_zero, zero_add] at hspec
      rcases hspec with hok | ⟨m, _, _, _, herr⟩
      · rw [h] at hok
        exact Except.ok.inj hok
      · rw [h] at herr
        exact absurd herr (by simp)

/-- Any error of `computeIterativePower` (positive chunk size) is the
memory-limit ValidationError, and it occurs only when some intermediate
accumulated value `base ^ m`, `0 < m ≤ exponent`, has a decimal string
longer than 1000 characters. -/
lemma computeIterativePower_error (base exponent chunkSize : ℤ)
    (hc : 0 < chunkSize) (e : JsError)
    (h : computeIterativePower base exponent chunkSize = Except.error e) :
    e = JsError.validationError "Power computation exceeds memory limits" ∧
      ∃ m : ℕ, 0 < m ∧ (m : ℤ) ≤ exponent ∧ 1000 < intToStringLen (base ^ m) := by
  unfold computeIterativePower at h
  by_cases h0 : exponent = 0
  · rw [if_pos h0] at h; exact absurd h (by simp)
  · rw [if_neg h0] at h
    by_cases h1 : exponent = 1
    · rw [if_pos h1] at h; exact absurd h (by simp)
    · rw [if_neg h1] at h
      by_cases hneg : exponent < 0
      · have htoNat : exponent.toNat = 0 := by omega
        rw [htoNat] at h
        simp only [iterPowerLoop, if_neg (by omega : ¬ (0 : ℤ) < exponent)] at h
        exact absurd h (by simp)
      · have he : 0 ≤ exponent := by omega
        have hspec := iterPowerLoop_spec base chunkSize hc exponent.toNat 0 exponent he le_rfl
        rw [pow_zero, zero_add] at hspec
        rcases hspec with hok | ⟨m, hm1, hm2, hm3, herr⟩
        · rw [h] at hok; exact absurd hok (by simp)
        · rw [h] at herr
          refine ⟨Except.error.inj herr, m, hm1, by omega, hm3⟩

/-- A negative exponent makes the `while` loop of `computeIterativePower`
vacuous: the call returns the initial accumulator 1. -/
lemma computeIterativePower_negExp (base exponent chunkSize : ℤ) (he : exponent < 0) :
    computeIterativePower base exponent chunkSize = Except.ok 1 := by
  unfold computeIterativePower
  rw [if_neg (by omega), if_neg (by omega)]
  have htoNat : exponent.toNat = 0 := by omega
  rw [htoNat]
  simp only [iterPowerLoop, if_neg (by omega : ¬ (0 : ℤ) < exponent)]

/-- With overflow checking disabled, the (spec-modelled) core power returns
the exact mathematical result for every nonnegative exponent. -/
lemma power_power_unchecked (base exponent : ℤ) (config : HypernumConfig)
    (hco : config.checkOverflow = false) (he : 0 ≤ exponent) :
    power.power base exponent config = Except.ok (base ^ exponent.toNat) := by
  simp only [power.power]
  rw [if_neg (by omega)]
  simp [hco]

/-- The (spec-modelled) core power rejects every negative exponent with a
ValidationError, regardless of the configuration. -/
lemma power_power_negExp (base exponent : ℤ) (config : HypernumConfig)
    (he : exponent < 0) :
    power.power base exponent config =
      Except.error (JsError.validationError "Negative exponent not supported in integer power") := by
  simp only [power.power]
  rw [if_pos he]

/-- `computeStagedPower` fails with a ValidationError whenever the exponent
exceeds the configured (or defaulted) `maxSteps` budget. -/
lemma computeStagedPower_budget (base exponent : ℤ) (config : HypernumConfig)
    (h : stagedMaxSteps config < exponent) :
    computeStagedPower base exponent config =
      Except.error (JsError.validationError "Exponent too large for staged computation") := by
  simp only [computeStagedPower]
  rw [if_pos h]

/-! ### Lemmas about strategy resolution -/

/-- `detectDimensions` only ever emits growth-risk, precision-tension,
recursion-depth or user-intent profiles; in particular never `heuristicFit`. -/
lemma detectDimensions_not_heuristicFit (inputs : List ℤ) (config : HypernumConfig) :
    ∀ p ∈ detectDimensions inputs config, p.dimension ≠ StrategyDimension.heuristicFit := by
  intro p hp
  unfold detectDimensions at hp
  simp only [List.mem_append] at hp
  rcases hp with ((h1 | h2) | h3) | h4
  · rw [List.mem_filterMap] at h1
    obtain ⟨x, _, hfx⟩ := h1
    cases hpx : promoteToDimension x with
    | none => rw [hpx] at hfx; simp at hfx
    | some q =>
      rw [hpx] at hfx
      have hq : q.dimension = StrategyDimension.growthRisk := by
        unfold promoteToDimension at hpx
        by_cases hI : isPromotableScalar x
        · rw [if_neg (by simp [hI])] at hpx
          rw [← Option.some.inj hpx]
          rfl
        · rw [if_pos (by simp [hI])] at hpx
          exact absurd hpx (by simp)
      by_cases ht : q.threshold ≤ q.activation
      · simp only [if_pos ht] at hfx
        rw [← Option.some.inj hfx, hq]
        simp
      · simp only [if_neg ht] at hfx
        simp at hfx
  · cases hcp : config.precision with
    | none => rw [hcp] at h2; simp at h2
    | some q =>
      rw [hcp] at h2
      have h2b : p ∈ (if 10 < q then [precisionProfile q] else ([] : List DimensionProfile)) := h2
      by_cases hq : 10 < q
      · rw [if_pos hq] at h2b
        rw [List.mem_singleton] at h2b
        rw [h2b]
        simp [precisionProfile]
      · rw [if_neg hq] at h2b; simp at h2b
  · cases hcm : config.maxSteps with
    | none => rw [hcm] at h3; simp at h3
    | some m =>
      rw [hcm] at h3
      have h3b : p ∈ (if 500 < m then [recursionProfile m] else ([] : List DimensionProfile)) := h3
      by_cases hm : 500 < m
      · rw [if_pos hm] at h3b
        rw [List.mem_singleton] at h3b
        rw [h3b]
        simp [recursionProfile]
      · rw [if_neg hm] at h3b; simp at h3b
  · by_cases hd : config.debug
    · rw [if_pos hd] at h4
      rw [List.mem_singleton] at h4
      rw [h4]
      simp [userIntentProfile]
    · rw [if_neg hd] at h4; simp at h4

/-- The heuristic strategy is unreachable: `detectDimensions` never emits a
`heuristicFit` profile, so `resolveStrategy` never selects `heuristic`. -/
lemma resolveStrategy_primary_ne_heuristic (inputs : List ℤ) (config : HypernumConfig) :
    (resolveStrategy inputs config).primary ≠ StrategyPrimary.heuristic := by
  have hnot : StrategyDimension.heuristicFit ∉
      (((detectDimensions inputs config).filter
          fun p => decide (p.threshold ≤ p.activation)).map (·.dimension)) := by
    intro hmem
    rw [List.mem_map] at hmem
    obtain ⟨p, hpf, hpd⟩ := hmem
    exact detectDimensions_not_heuristicFit inputs config p (List.mem_of_mem_filter hpf) hpd
  unfold resolveStrategy
  simp only []
  rw [if_neg hnot]
  repeat' split
  all_goals simp

/-- `computeSmartPower` throws the safe-bounds ValidationError for every
`base > 10`, `exponent > 100` and every configuration (the heuristic escape
is unreachable), overflow checking included or not. -/
lemma computeSmartPower_growthGuard (base exponent : ℤ) (config : HypernumConfig)
    (hb : 10 < base) (he : 100 < exponent) :
    computeSmartPower base exponent config =
      Except.error (JsError.validationError "Power computation would exceed safe bounds") := by
  unfold computeSmartPower
  simp only []
  rw [if_pos ⟨hb, he⟩,
    if_neg (resolveStrategy_primary_ne_heuristic [base, exponent] config)]

/-! ### Concrete configurations and runs -/

/-- A configuration with overflow checking disabled and nothing else set. -/
def cfgNoOverflow : HypernumConfig := { checkOverflow := false }

/-- A configuration whose `maxSteps = 800` activates the recursion-depth
dimension (`800 > 500` and `800 / 2000 = 0.4 ≥ 0.4`), driving
`resolveStrategy` to the memory-safe strategy. -/
def cfgMemorySafe : HypernumConfig := { maxSteps := some 800 }

/-- Dimension detection on the run `computeSmartPower(2, -3, { maxSteps: 800 })`. -/
lemma detectDimensions_memorySafe :
    detectDimensions [2, -3] cfgMemorySafe = [recursionProfile 800] := rfl

/-- The recursion-depth profile for `maxSteps = 800` passes its threshold:
`min(800/2000, 1) = 0.4 ≥ 0.4`. -/
lemma recursionProfile_800_active :
    decide ((recursionProfile 800).threshold ≤ (recursionProfile 800).activation) = true := by
  refine decide_eq_true ?_
  simp only [recursionProfile]
  norm_num

/-- `resolveStrategy` picks the memory-safe strategy on that run. -/
lemma resolveStrategy_memorySafe :
    (resolveStrategy [2, -3] cfgMemorySafe).primary = StrategyPrimary.memorySafe := by
  have hfil : ((detectDimensions [2, -3] cfgMemorySafe).filter
      fun p => decide (p.threshold ≤ p.activation)) = [recursionProfile 800] := by
    rw [detectDimensions_memorySafe]
    simp only [List.filter_cons, List.filter_nil]
    rw [recursionProfile_800_active]
    simp
  unfold resolveStrategy
  simp only []
  rw [hfil]
  simp [recursionProfile]

/-- Under the memory-safe strategy, `computeSmartPower` on the negative
exponent -3 returns the value 1 (no error). -/
lemma computeSmartPower_negExp_run :
    computeSmartPower 2 (-3) cfgMemorySafe = Except.ok (NumericResult.bigintVal 1) := by
  unfold computeSmartPower
  simp only []
  rw [if_neg (by norm_num : ¬ ((10:ℤ) < 2 ∧ (100:ℤ) < -3))]
  rw [resolveStrategy_memorySafe]
  simp only []
  rw [computeIterativePower_negExp 2 (-3) 1000 (by norm_num)]
  rfl

/-- On a plain overflow-disabled configuration, `resolveStrategy` for the
inputs 2 and 1000 finds no active dimension and picks the exact strategy. -/
lemma resolveStrategy_plain_2_1000 :
    (resolveStrategy [2, 1000] cfgNoOverflow).primary = StrategyPrimary.exact := rfl

/-- `computeSmartPower(2, 1000)` with overflow checking disabled returns the
exact value 2 ^ 1000. -/
lemma computeSmartPower_2_1000_run :
    computeSmartPower 2 1000 cfgNoOverflow
      = Except.ok (NumericResult.bigintVal (2 ^ (1000 : ℕ))) := by
  unfold computeSmartPower
  simp only []
  rw [if_neg (by norm_num : ¬ ((10:ℤ) < 2 ∧ (100:ℤ) < 1000))]
  rw [resolveStrategy_plain_2_1000]
  simp only []
  rw [power_power_unchecked 2 1000 cfgNoOverflow rfl (by norm_num)]
  rfl

/-! ### A concrete conflicting profile list for resolveDimensionConflicts -/

/-- A precision-tension profile with activation 0.8. -/
def profPrecisionEx : DimensionProfile :=
  { dimension := StrategyDimension.precisionTension
    activation := 4/5
    threshold := 3/10
    evidence := [] }

/-- A heuristic-fit profile with activation 0.8. -/
def profHeuristicEx : DimensionProfile :=
  { dimension := StrategyDimension.heuristicFit
    activation := 4/5
    threshold := 1/2
    evidence := [] }

/-- A profile list with a precision/heuristic conflict. -/
def conflictProfilesEx : List DimensionProfile := [profPrecisionEx, profHeuristicEx]

/-- Evaluation of `resolveDimensionConflicts` on the conflicting list: the
caller's heuristic profile ends up with its activation halved in place. -/
lemma resolveDimensionConflicts_run :
    resolveDimensionConflictsCallerAfter conflictProfilesEx
      = [profPrecisionEx,
         { dimension := StrategyDimension.heuristicFit
           activation := (4:ℚ)/5 * (1/2)
           threshold := 1/2
           evidence := [] }] := rfl

/-! ### Division facts -/

/-- `MockHypernum.divide` surfaces the native error on a zero divisor. -/
lemma MockHypernum_divide_zero (a : ℤ) :
    MockHypernum.divide a 0 = Except.error (JsError.rangeErrorNative "Division by zero") := by
  simp [MockHypernum.divide]

/-- The fallback divide surfaces the native error on a zero divisor. -/
lemma fallbackDivide_zero (a : ℤ) :
    fallbackDivide a 0 = Except.error (JsError.rangeErrorNative "Division by zero") := by
  simp [fallbackDivide]

/-- The (spec-modelled) kernel divide raises a ValidationError on a zero
divisor. -/
lemma arithmetic_divide_zero (a : ℤ) :
    arithmetic.divide a 0 = Except.error (JsError.validationError "Division by zero is not allowed") := by
  simp [arithmetic.divide]

/-! ## Claims -/

set_option maxRecDepth 10000 in
/-- Claim C1 (corrected).  With overflow checking disabled the core power
operation returns the exact mathematical value `base ^ exponent` for every
base and every nonnegative exponent, never failing because of the result's
size; in particular `computeSmartPower(2, 1000)` under a plain
overflow-disabled configuration returns the exact 302-digit integer
`2 ^ 1000`.  However the DGT wrapper `computeSmartPower` still fails with a
ValidationError whenever `base > 10` and `exponent > 100`, regardless of the
overflow-checking setting, so the original universal claim is false for the
smart power operation. -/
theorem C1_unchecked_power_exact :
    (∀ (base exponent : ℤ) (config : HypernumConfig),
        config.checkOverflow = false → 0 ≤ exponent →
        power.power base exponent config = Except.ok (base ^ exponent.toNat))
    ∧ computeSmartPower 2 1000 cfgNoOverflow
        = Except.ok (NumericResult.bigintVal (2 ^ (1000 : ℕ)))
    ∧ digitLen (2 ^ 1000) = 302
    ∧ (∀ (base exponent : ℤ) (config : HypernumConfig), 10 < base → 100 < exponent →
        computeSmartPower base exponent config
          = Except.error (JsError.validationError "Power computation would exceed safe bounds")) :=
  ⟨power_power_unchecked, computeSmartPower_2_1000_run, by decide,
   computeSmartPower_growthGuard⟩

/-- Claim C1, witness: the universally quantified parts of
`C1_unchecked_power_exact` applied at concrete inputs. -/
theorem C1_unchecked_power_exact_witness :
    cfgNoOverflow.checkOverflow = false ∧ 0 ≤ (5 : ℤ)
    ∧ power.power 3 5 cfgNoOverflow = Except.ok ((3 : ℤ) ^ (5 : ℤ).toNat)
    ∧ (10 : ℤ) < 12 ∧ (100 : ℤ) < 101
    ∧ computeSmartPower 12 101 {}
        = Except.error (JsError.validationError "Power computation would exceed safe bounds") :=
  ⟨rfl, by decide,
   C1_unchecked_power_exact.1 3 5 cfgNoOverflow rfl (by decide),
   by decide, by decide,
   C1_unchecked_power_exact.2.2.2 12 101 {} (by decide) (by decide)⟩

/-- Claim C1, counterexample to the claim as stated: with overflow checking
disabled, `computeSmartPower(11, 101)` still fails with a ValidationError,
because of the result's prospective size, instead of returning the exact
value `11 ^ 101`. -/
theorem C1_counterexample :
    computeSmartPower 11 101 cfgNoOverflow
        = Except.error (JsError.validationError "Power computation would exceed safe bounds")
    ∧ cfgNoOverflow.checkOverflow = false :=
  ⟨rfl, rfl⟩

/-- Claim C2 (confirmed).  For every `n ≥ 0` and `0 ≤ k ≤ n`, the iterative
binomial keeps its accumulator an exact integer at every step (each bigint
division in the loop has zero remainder) and returns the binomial
coefficient `C(n, k)`; in particular `binomial(10, 3) = 120`. -/
theorem C2_binomial_exact_integer_invariant :
    (∀ (n k : ℤ), 0 ≤ k → k ≤ n →
        computeIterativeBinomialDvd n k
        ∧ computeIterativeBinomial n k = ((n.toNat.choose k.toNat : ℕ) : ℤ))
    ∧ computeIterativeBinomial 10 3 = 120 :=
  ⟨fun n k hk hkn =>
    ⟨computeIterativeBinomial_dvd n k hk hkn, computeIterativeBinomial_eq_choose n k hk hkn⟩,
   rfl⟩

/-- Claim C2, witness at `n = 10`, `k = 3`. -/
theorem C2_binomial_exact_integer_invariant_witness :
    0 ≤ (3 : ℤ) ∧ (3 : ℤ) ≤ 10
    ∧ computeIterativeBinomial 10 3 = (((10 : ℤ).toNat.choose (3 : ℤ).toNat : ℕ) : ℤ) :=
  ⟨by decide, by decide,
   (C2_binomial_exact_integer_invariant.1 10 3 (by decide) (by decide)).2⟩

/-- Claim C3 (corrected).  The core power operation and the staged path
reject every negative exponent with a ValidationError; but the memory-safe
path `computeIterativePower` never enters its loop on a negative exponent
and returns the placeholder value 1 instead of failing, so the original
claim is false for the smart power operation. -/
theorem C3_negative_exponent_validation :
    (∀ (base exponent : ℤ) (config : HypernumConfig), exponent < 0 →
        power.power base exponent config
          = Except.error (JsError.validationError "Negative exponent not supported in integer power"))
    ∧ (∀ (base exponent chunkSize : ℤ), exponent < 0 →
        computeIterativePower base exponent chunkSize = Except.ok 1) :=
  ⟨power_power_negExp, computeIterativePower_negExp⟩

/-- Claim C3, witness: both parts applied at concrete negative exponents. -/
theorem C3_negative_exponent_validation_witness :
    (-5 : ℤ) < 0 ∧ (-2 : ℤ) < 0
    ∧ power.power 3 (-5) {}
        = Except.error (JsError.validationError "Negative exponent not supported in integer power")
    ∧ computeIterativePower 7 (-2) 1000 = Except.ok 1 :=
  ⟨by decide, by decide,
   C3_negative_exponent_validation.1 3 (-5) {} (by decide),
   C3_negative_exponent_validation.2 7 (-2) 1000 (by decide)⟩

/-- Claim C3, counterexample to the claim as stated: under the memory-safe
strategy (`maxSteps = 800`), `computeSmartPower(2, -3)` returns the value 1
instead of failing with a ValidationError. -/
theorem C3_counterexample :
    computeSmartPower 2 (-3) cfgMemorySafe = Except.ok (NumericResult.bigintVal 1) :=
  computeSmartPower_negExp_run

/-- Claim C4 (corrected).  In the DGT power layer, size-bound and
step-budget failures are reported as ValidationError, not as OverflowError
or ComputationLimitError: `computeStagedPower` raises a ValidationError
whenever the exponent exceeds the configured (or defaulted) `maxSteps`
budget; `computeSmartPower` raises a ValidationError on extreme growth risk;
and every error of `computeIterativePower` (positive chunk size) is the
memory-limit ValidationError. -/
theorem C4_bound_failures_are_validation :
    (∀ (base exponent : ℤ) (config : HypernumConfig), stagedMaxSteps config < exponent →
        computeStagedPower base exponent config
          = Except.error (JsError.validationError "Exponent too large for staged computation"))
    ∧ (∀ (base exponent : ℤ) (config : HypernumConfig), 10 < base → 100 < exponent →
        computeSmartPower base exponent config
          = Except.error (JsError.validationError "Power computation would exceed safe bounds"))
    ∧ (∀ (base exponent chunkSize : ℤ) (e : JsError), 0 < chunkSize →
        computeIterativePower base exponent chunkSize = Except.error e →
        e = JsError.validationError "Power computation exceeds memory limits") :=
  ⟨computeStagedPower_budget,
   computeSmartPower_growthGuard,
   fun base exponent chunkSize e hc h =>
     (computeIterativePower_error base exponent chunkSize hc e h).1⟩

set_option maxRecDepth 10000 in
/-- Claim C4, witness: all three parts applied at concrete inputs. -/
theorem C4_bound_failures_are_validation_witness :
    stagedMaxSteps {} < 1500
    ∧ computeStagedPower 3 1500 {}
        = Except.error (JsError.validationError "Exponent too large for staged computation")
    ∧ (10 : ℤ) < 11 ∧ (100 : ℤ) < 102
    ∧ computeSmartPower 11 102 cfgMemorySafe
        = Except.error (JsError.validationError "Power computation would exceed safe bounds")
    ∧ (0 : ℤ) < 1
    ∧ JsError.validationError "Power computation exceeds memory limits"
        = JsError.validationError "Power computation exceeds memory limits" :=
  ⟨by decide,
   C4_bound_failures_are_validation.1 3 1500 {} (by decide),
   by decide, by decide,
   C4_bound_failures_are_validation.2.1 11 102 cfgMemorySafe (by decide) (by decide),
   by decide,
   C4_bound_failures_are_validation.2.2 ((10 ^ 1001 : ℕ) : ℤ) 2 1
     (JsError.validationError "Power computation exceeds memory limits")
     (by decide) (by decide)⟩

/-- Claim C4, counterexample to the claim as stated: the step-budget
failure of `computeStagedPower(2, 2000)` under the default budget of 1000
is reported as a ValidationError, not as an OverflowError or
ComputationLimitError. -/
theorem C4_counterexample :
    computeStagedPower 2 2000 {}
      = Except.error (JsError.validationError "Exponent too large for staged computation") :=
  rfl

/-- Claim C5 (confirmed).  For every `n ≥ 0` and `0 ≤ k ≤ n`,
`binomial(n, k) = binomial(n, n - k)`. -/
theorem C5_binomial_symmetry :
    ∀ (n k : ℤ), 0 ≤ k → k ≤ n →
      computeIterativeBinomial n k = computeIterativeBinomial n (n - k) := by
  intro n k hk hkn
  rw [computeIterativeBinomial_eq_choose n k hk hkn,
    computeIterativeBinomial_eq_choose n (n - k) (by omega) (by omega)]
  have htoNat : (n - k).toNat = n.toNat - k.toNat := by omega
  rw [htoNat, Nat.choose_symm (by omega)]

/-- Claim C5, witness at `n = 10`, `k = 3`. -/
theorem C5_binomial_symmetry_witness :
    0 ≤ (3 : ℤ) ∧ (3 : ℤ) ≤ 10
    ∧ computeIterativeBinomial 10 3 = computeIterativeBinomial 10 (10 - 3) :=
  ⟨by decide, by decide, C5_binomial_symmetry 10 3 (by decide) (by decide)⟩

/-- Claim C6 (code bug).  The spec states every operation outside the data
structures is pure, and `resolveDimensionConflicts` in particular returns
adjusted copies while leaving the received profiles unchanged; but the JS
shallow copy `[...profiles]` shares the profile objects, so on a conflicting
profile list the caller's heuristic-fit profile has its activation halved in
place (here 0.8 becomes 0.4): after the call the caller's list differs from
the list it passed in. -/
theorem C6_resolveDimensionConflicts_mutates :
    resolveDimensionConflictsCallerAfter conflictProfilesEx ≠ conflictProfilesEx
    ∧ (resolveDimensionConflictsCallerAfter conflictProfilesEx).get? 1
        = some { dimension := StrategyDimension.heuristicFit
                 activation := 2/5
                 threshold := 1/2
                 evidence := [] } := by
  have hval : ((4 : ℚ)/5) * (1/2) = 2/5 := by norm_num
  constructor
  · rw [resolveDimensionConflicts_run, hval]
    intro h
    have h2 := (List.cons.inj h).2
    have h3 := ((List.cons.inj h2).1)
    have h4 := congrArg DimensionProfile.activation h3
    simp only [profHeuristicEx] at h4
    norm_num at h4
  · rw [resolveDimensionConflicts_run, hval]
    rfl

/-- Claim C7 (corrected).  The core arithmetic kernel's divide (modelled
from the spec, the kernel is not among the sources) fails with a
ValidationError for every dividend when the divisor normalizes to zero; but
the browser demo's `MockHypernum.divide` and its `fallbackToBasicMode`
divide use native bigint division, which raises a native RangeError, not a
ValidationError, on a zero divisor. -/
theorem C7_divide_by_zero :
    (∀ a : ℤ, arithmetic.divide a 0
        = Except.error (JsError.validationError "Division by zero is not allowed"))
    ∧ (∀ a : ℤ, MockHypernum.divide a 0
        = Except.error (JsError.rangeErrorNative "Division by zero"))
    ∧ (∀ a : ℤ, fallbackDivide a 0
        = Except.error (JsError.rangeErrorNative "Division by zero")) :=
  ⟨arithmetic_divide_zero, MockHypernum_divide_zero, fallbackDivide_zero⟩

/-- Claim C7, witness at dividend 7. -/
theorem C7_divide_by_zero_witness :
    arithmetic.divide 7 0 = Except.error (JsError.validationError "Division by zero is not allowed")
    ∧ MockHypernum.divide 7 0 = Except.error (JsError.rangeErrorNative "Division by zero")
    ∧ fallbackDivide 7 0 = Except.error (JsError.rangeErrorNative "Division by zero") :=
  ⟨C7_divide_by_zero.1 7, C7_divide_by_zero.2.1 7, C7_divide_by_zero.2.2 7⟩

/-- Claim C7, counterexample to the claim as stated: dividing 1 by zero
through the demo's `MockHypernum.divide` raises the native RangeError, not a
ValidationError. -/
theorem C7_counterexample :
    MockHypernum.divide 1 0 = Except.error (JsError.rangeErrorNative "Division by zero") :=
  rfl

/-- Claim C8 (confirmed).  For every `n ≥ 0`, `0 ≤ k ≤ n` and every
configuration, the two binomial implementations agree:
`computeStagedBinomial(n, k, c) = computeIterativeBinomial(n, k)`; the
configuration argument does not affect the result. -/
theorem C8_staged_iterative_binomial_agree :
    ∀ (n k : ℤ) (config : HypernumConfig), 0 ≤ n → 0 ≤ k → k ≤ n →
      computeStagedBinomial n k config = computeIterativeBinomial n k := by
  intro n k config _ hk hkn
  rw [computeStagedBinomial_eq_choose n k config hk hkn,
    computeIterativeBinomial_eq_choose n k hk hkn]

/-- Claim C8, witness at `n = 10`, `k = 4`, two different configurations. -/
theorem C8_staged_iterative_binomial_agree_witness :
    0 ≤ (10 : ℤ) ∧ 0 ≤ (4 : ℤ) ∧ (4 : ℤ) ≤ 10
    ∧ computeStagedBinomial 10 4 {} = computeIterativeBinomial 10 4
    ∧ computeStagedBinomial 10 4 cfgMemorySafe = computeIterativeBinomial 10 4 :=
  ⟨by decide, by decide, by decide,
   C8_staged_iterative_binomial_agree 10 4 {} (by decide) (by decide) (by decide),
   C8_staged_iterative_binomial_agree 10 4 cfgMemorySafe (by decide) (by decide) (by decide)⟩

/-- Claim C9 (confirmed).  For every `n ≥ 0` and every `k > n`,
`computeIterativeBinomial(n, k)` returns 0; the function is a total bigint
computation whose arithmetic cannot throw, so no error is raised. -/
theorem C9_binomial_above_n_zero :
    ∀ (n k : ℤ), 0 ≤ n → n < k → computeIterativeBinomial n k = 0 := by
  intro n k _ hnk
  unfold computeIterativeBinomial
  rw [if_pos hnk]

/-- Claim C9, witness at `n = 5`, `k = 7`. -/
theorem C9_binomial_above_n_zero_witness :
    0 ≤ (5 : ℤ) ∧ (5 : ℤ) < 7 ∧ computeIterativeBinomial 5 7 = 0 :=
  ⟨by decide, by decide, C9_binomial_above_n_zero 5 7 (by decide) (by decide)⟩

/-- Claim C10 (corrected).  For every base, exponent ≥ 0 and chunk size > 0,
`computeIterativePower` either returns exactly `base ^ exponent` or throws a
ValidationError, and the ValidationError is thrown only when the decimal
string representation of an intermediate accumulated result `base ^ m`
(`0 < m ≤ exponent`) is longer than 1000 characters — for a negative base
the string length includes the minus sign, so a 1000-digit negative
intermediate already trips the cap (see the counterexample); for nonnegative
bases this coincides with exceeding 1000 decimal digits.  The cap is
independent of any configuration: the function receives none. -/
theorem C10_iterative_power_exact_or_capped :
    ∀ (base exponent chunkSize : ℤ), 0 ≤ exponent → 0 < chunkSize →
      (∀ v : ℤ, computeIterativePower base exponent chunkSize = Except.ok v →
        v = base ^ exponent.toNat)
      ∧ (∀ e : JsError, computeIterativePower base exponent chunkSize = Except.error e →
          e = JsError.validationError "Power computation exceeds memory limits"
          ∧ ∃ m : ℕ, 0 < m ∧ (m : ℤ) ≤ exponent ∧ 1000 < intToStringLen (base ^ m)) :=
  fun base exponent chunkSize he hc =>
    ⟨fun v h => computeIterativePower_ok base exponent chunkSize he hc v h,
     fun e h => computeIterativePower_error base exponent chunkSize hc e h⟩

/-- Claim C10, witness: at base 2, exponent 10, chunk size 3 the theorem
yields the exact value 2 ^ 10. -/
theorem C10_iterative_power_exact_or_capped_witness :
    0 ≤ (10 : ℤ) ∧ 0 < (3 : ℤ)
    ∧ computeIterativePower 2 10 3 = Except.ok ((2 : ℤ) ^ (10 : ℤ).toNat) :=
  ⟨by decide, by decide, by
    have hok : computeIterativePower 2 10 3 = Except.ok 1024 := by decide
    have hv := (C10_iterative_power_exact_or_capped 2 10 3 (by decide) (by decide)).1 1024 hok
    rw [hok, hv]⟩

set_option maxRecDepth 10000 in
/-- Claim C10, counterexample to the claim as stated: with the negative base
`-(10 ^ 999)`, exponent 3 and chunk size 1, the first intermediate
accumulated result is the base itself, which has exactly 1000 decimal digits
(so it does not exceed 1000 digits), yet its string representation is 1001
characters long because of the minus sign and the call throws the
ValidationError. -/
theorem C10_counterexample :
    computeIterativePower (-((10 ^ 999 : ℕ) : ℤ)) 3 1
        = Except.error (JsError.validationError "Power computation exceeds memory limits")
    ∧ digitLen (Int.natAbs (-((10 ^ 999 : ℕ) : ℤ))) = 1000
    ∧ intToStringLen (-((10 ^ 999 : ℕ) : ℤ)) = 1001 :=
  ⟨by decide, by decide, by decide⟩
